import Mathlib

/-!
Shallow embedding of the goproxy-s3 proxy (package `proxy`: the module
read handler `ProxyHandler` and the S3 populator `S3Copier`), together
with the parts of its dependency `golang.org/x/mod` (packages `module`
and `semver`, v0.5.1) that the handler calls.

Strings are modelled as Lean `String` / `List Char`.  Go iterates over
runes and indexes bytes; on the ASCII inputs this program deals with the
two coincide, and the embedded escaping functions reject non-ASCII input
exactly as the Go originals do.
-/

set_option maxRecDepth 4000

/-! ## Go standard-library string helpers -/

/-- Mirrors `strings.Index(s, sub)` (first occurrence), restricted to a
single-character needle `sub = [c]`, which is how `parseURLPathForModule`
uses it (`strings.Index(urlPath, "@")`).  Returns `none` for Go's `-1`. -/
def indexOfChar (c : Char) : List Char → Option Nat
  | [] => none
  | a :: t => if a = c then some 0 else (indexOfChar c t).map (· + 1)

/-- Mirrors `strings.Index(s, sub)` for a general needle: the smallest
index at which `sub` occurs in `s`, or `none` for Go's `-1`. -/
def firstIndexOfSub (sub : List Char) : List Char → Option Nat
  | [] => if sub.isPrefixOf ([] : List Char) then some 0 else none
  | a :: t => if sub.isPrefixOf (a :: t) then some 0 else (firstIndexOfSub sub t).map (· + 1)

/-- Mirrors `strings.Contains(s, sub)`. -/
def containsSubStr (s sub : String) : Bool :=
  (firstIndexOfSub sub.toList s.toList).isSome

/-- Mirrors `strings.TrimPrefix(s, "/")`: drop one leading slash. -/
def trimPrefixSlash (s : String) : String :=
  match s.toList with
  | '/' :: t => String.mk t
  | _ => s

/-- Mirrors `strings.TrimSuffix(s, suf)`. -/
def trimSuffix (s suf : String) : String :=
  if suf.toList.isSuffixOf s.toList then
    String.mk (s.toList.take (s.toList.length - suf.toList.length))
  else s

/-- Mirrors `strings.Replace(s, old, new, 1)` on char lists (used by
`S3Copier.Copy` with `new = ""` to strip the assets-dir from a walked
path). -/
def replaceFirst (s old new : List Char) : List Char :=
  match firstIndexOfSub old s with
  | none => s
  | some i => s.take i ++ new ++ s.drop (i + old.length)

/-- Helper for `pathExt`: Go's `path.Ext` scans the path backwards,
stopping at the first `'/'`; on the first `'.'` it returns the suffix
from that dot on.  Input here is the reversed path, `acc` accumulates
the characters already passed (in forward order). -/
def extRevAcc : List Char → List Char → List Char
  | _, [] => []
  | acc, ch :: t =>
    if ch = '/' then []
    else if ch = '.' then '.' :: acc
    else extRevAcc (ch :: acc) t

/-- Mirrors `path.Ext` (and `filepath.Ext` with separator `'/'`, as used
on Linux by `shouldUpload`): the suffix beginning at the final dot in the
final slash-separated element, `""` when there is none. -/
def pathExt (s : String) : String :=
  String.mk (extRevAcc [] s.toList.reverse)

/-- Split a char list at every occurrence of `sep` (used to enumerate
the `/`-separated elements of a module path, and the `.`-separated
identifiers of a semver prerelease/build suffix). -/
def splitOnChar (sep : Char) : List Char → List (List Char)
  | [] => [[]]
  | a :: t =>
    match splitOnChar sep t with
    | [] => if a = sep then [[], []] else [[a]]
    | h :: r => if a = sep then [] :: h :: r else (a :: h) :: r

/-! ## golang.org/x/mod/module v0.5.1: path/version checking -/

/-- Mirrors `module.pathOK`: characters allowed in a module path
element.  Non-ASCII runes are rejected, as in Go. -/
def pathOK (c : Char) : Bool :=
  decide (c.toNat < 128) &&
    (c == '-' || c == '.' || c == '_' || c == '~' || c.isDigit || c.isUpper || c.isLower)

/-- The ASCII punctuation `module.fileNameOK` allows (its `allowed`
constant: `! # $ % & ( ) + , - . = @ ^ _ { } ~`; `\x7b`/`\x7d` are the
braces). -/
def fileNameAllowed : List Char :=
  ['!', '#', '$', '%', '&', '(', ')', '+', ',', '-', '.', '=', '@', '^', '_', '\x7b', '\x7d', '~']

/-- Mirrors `module.fileNameOK`.  For non-ASCII runes Go answers
`unicode.IsLetter(r)`; in this embedding that branch is unreachable
(both callers run `unescapeString` first, which rejects non-ASCII), so
it is modelled as `false`. -/
def fileNameOK (c : Char) : Bool :=
  if c.toNat < 128 then
    c.isDigit || c.isUpper || c.isLower || fileNameAllowed.contains c
  else false

/-- Mirrors `module.firstPathOK`: characters allowed in the first
element of a module path (lowercase only). -/
def firstPathOK (c : Char) : Bool :=
  c == '-' || c == '.' || c.isDigit || c.isLower

/-- ASCII lowering, for the `strings.EqualFold` comparison against
`badWindowsNames` (those names are all ASCII, where `EqualFold` agrees
with ASCII case folding). -/
def asciiLower (c : Char) : Char :=
  if c.isUpper then Char.ofNat (c.toNat + 32) else c

/-- Mirrors `strings.EqualFold` on the ASCII alphabet. -/
def eqFold (a b : List Char) : Bool :=
  a.map asciiLower == b.map asciiLower

/-- Mirrors `module.badWindowsNames`. -/
def badWindowsNames : List String :=
  ["CON", "PRN", "AUX", "NUL",
   "COM1", "COM2", "COM3", "COM4", "COM5", "COM6", "COM7", "COM8", "COM9",
   "LPT1", "LPT2", "LPT3", "LPT4", "LPT5", "LPT6", "LPT7", "LPT8", "LPT9"]

/-- Mirrors the trailing tilde-and-digits rejection in
`module.checkElem` (Windows short-name shapes such as `longna~1`). -/
def trailingTildeDigits (short : List Char) : Bool :=
  short.contains '~' &&
    (let suffix := (short.reverse.takeWhile (fun c => c != '~')).reverse
     !suffix.isEmpty && suffix.all Char.isDigit)

/-- Mirrors `module.checkElem(elem, fileName)` as a Boolean (`true` iff
Go returns a nil error).  The error messages themselves are irrelevant
to the proxy, which only branches on error vs no-error. -/
def checkElem (elem : List Char) (fileName : Bool) : Bool :=
  !elem.isEmpty &&
  !(elem.all (fun c => c == '.')) &&
  !(elem.head? == some '.' && !fileName) &&
  !(elem.getLast? == some '.') &&
  elem.all (fun c => if fileName then fileNameOK c else pathOK c) &&
  (let short := elem.takeWhile (fun c => c != '.')
   badWindowsNames.all (fun bad => !eqFold bad.toList short) &&
   (fileName || !trailingTildeDigits short))

/-- Mirrors `module.checkPath(path, fileName)` as a Boolean.  A Lean
`String` is always valid unicode, so Go's `utf8.ValidString` guard is
identically true here. -/
def checkPath (s : String) (fileName : Bool) : Bool :=
  !s.isEmpty &&
  !(s.toList.head? == some '-') &&
  !((firstIndexOfSub ['/', '/'] s.toList).isSome) &&
  !(s.toList.getLast? == some '/') &&
  (splitOnChar '/' s.toList).all (fun e => checkElem e fileName)

/-- Mirrors `module.splitGopkgIn`. -/
def splitGopkgIn (s : String) : String × String × Bool :=
  let cs := s.toList
  if !("gopkg.in/".toList.isPrefixOf cs) then (s, "", false)
  else
    let base := if "-unstable".toList.isSuffixOf cs then cs.take (cs.length - 9) else cs
    let i := base.length - (base.reverse.takeWhile Char.isDigit).length
    if decide (i ≤ 1) || !(base.get? (i - 1) == some 'v') || !(base.get? (i - 2) == some '.') then
      (s, "", false)
    else
      let major := cs.drop (i - 2)
      if decide (major.length ≤ 2) || (major.get? 2 == some '0' && !(major == ['.', 'v', '0'])) then
        (s, "", false)
      else (String.mk (cs.take (i - 2)), String.mk major, true)

/-- Mirrors `module.SplitPathVersion`: `(prefix, pathMajor, ok)`. -/
def SplitPathVersion (s : String) : String × String × Bool :=
  if "gopkg.in/".toList.isPrefixOf s.toList then splitGopkgIn s
  else
    let cs := s.toList
    let tailRev := cs.reverse.takeWhile (fun c => c.isDigit || c == '.')
    let i := cs.length - tailRev.length
    let dot := tailRev.contains '.'
    if decide (i ≤ 1) || decide (i = cs.length) ||
       !(cs.get? (i - 1) == some 'v') || !(cs.get? (i - 2) == some '/') then
      (s, "", true)
    else
      let major := cs.drop (i - 2)
      if dot || decide (major.length ≤ 2) || major.get? 2 == some '0' ||
         major == ['/', 'v', '1'] then
        (s, "", false)
      else (String.mk (cs.take (i - 2)), String.mk major, true)

/-- Mirrors `module.CheckPath` as a Boolean (`true` iff the nil-error
path is taken). -/
def CheckPath (s : String) : Bool :=
  checkPath s false &&
  (let cs := s.toList
   let i := (firstIndexOfSub ['/'] cs).getD cs.length
   !(decide (i = 0)) &&
   (cs.take i).contains '.' &&
   !(cs.head? == some '-') &&
   (cs.take i).all firstPathOK &&
   (SplitPathVersion s).2.2)

/-! ## golang.org/x/mod/module v0.5.1: escaping -/

/-- Recursive core of `module.unescapeString`; `bang` records whether
the previous character was the `'!'` escape sentinel. -/
def unescapeCore : List Char → Bool → Option (List Char)
  | [], bang => if bang then none else some []
  | c :: rest, bang =>
    if decide (128 ≤ c.toNat) then none
    else if bang then
      if c < 'a' ∨ 'z' < c then none
      else (unescapeCore rest false).map (fun l => Char.ofNat (c.toNat - 32) :: l)
    else if c = '!' then unescapeCore rest true
    else if c.isUpper then none
    else (unescapeCore rest false).map (fun l => c :: l)

/-- Mirrors `module.unescapeString` (`none` for `ok == false`). -/
def unescapeString (s : String) : Option String :=
  (unescapeCore s.toList false).map String.mk

/-- Mirrors `module.escapeString` (`none` for its internal-error
return, which fires on `'!'` or non-ASCII input). -/
def escapeString (s : String) : Option String :=
  let cs := s.toList
  if cs.any (fun c => c == '!' || decide (128 ≤ c.toNat)) then none
  else if cs.any Char.isUpper then
    some (String.mk (cs.foldr
      (fun c acc => if c.isUpper then '!' :: Char.ofNat (c.toNat + 32) :: acc else c :: acc) []))
  else some s

/-- Mirrors `module.EscapePath`: `CheckPath` then `escapeString`. -/
def EscapePath (s : String) : Option String :=
  if CheckPath s then escapeString s else none

/-- Mirrors `module.UnescapePath`: `unescapeString` then `CheckPath`. -/
def UnescapePath (escaped : String) : Option String :=
  match unescapeString escaped with
  | none => none
  | some p => if CheckPath p then some p else none

/-- Mirrors `module.UnescapeVersion`: `unescapeString` then
`checkElem(v, fileName=true)`. -/
def UnescapeVersion (escaped : String) : Option String :=
  match unescapeString escaped with
  | none => none
  | some v => if checkElem v.toList true then some v else none

/-! ## golang.org/x/mod/semver v0.5.1 -/

/-- Mirrors `semver.parseInt`: a numeric identifier with no leading
zero; returns the digits and the rest. -/
def semverParseInt (v : List Char) : Option (List Char × List Char) :=
  match v with
  | [] => none
  | c :: _ =>
    if !c.isDigit then none
    else
      let t := v.takeWhile Char.isDigit
      if c == '0' && decide (t.length ≠ 1) then none
      else some (t, v.dropWhile Char.isDigit)

/-- Mirrors `semver.isIdentChar`. -/
def semverIsIdentChar (c : Char) : Bool :=
  c.isUpper || c.isLower || c.isDigit || c == '-'

/-- Mirrors `semver.isBadNum`: all digits, more than one of them, and a
leading zero. -/
def semverIsBadNum (v : List Char) : Bool :=
  v.all Char.isDigit && decide (v.length > 1) && v.head? == some '0'

/-- Mirrors `semver.parsePrerelease`: a `'-'` followed by dot-separated
identifiers (no empty identifier, no leading-zero numeric identifier),
running up to the first `'+'` or the end. -/
def semverParsePrerelease (v : List Char) : Option (List Char × List Char) :=
  match v with
  | '-' :: t =>
    let s := t.takeWhile (fun c => c != '+')
    if s.all (fun c => semverIsIdentChar c || c == '.') &&
       (splitOnChar '.' s).all (fun part => !part.isEmpty && !semverIsBadNum part) then
      some ('-' :: s, t.dropWhile (fun c => c != '+'))
    else none
  | _ => none

/-- Mirrors `semver.parseBuild`: a `'+'` followed by dot-separated
nonempty identifiers, consuming the rest of the string. -/
def semverParseBuild (v : List Char) : Option (List Char × List Char) :=
  match v with
  | '+' :: t =>
    if t.all (fun c => semverIsIdentChar c || c == '.') &&
       (splitOnChar '.' t).all (fun part => !part.isEmpty) then
      some ('+' :: t, [])
    else none
  | _ => none

/-- Mirrors `semver.parsed` (the fields the proxy's callers read). -/
structure SemParsed where
  major : List Char
  minor : List Char
  patch : List Char
  short : List Char
  prerelease : List Char
  build : List Char
deriving DecidableEq

/-- Mirrors `semver.parse`: `v<major>[.<minor>[.<patch>[-pre][+build]]]`;
`short` records the canonical completion when minor/patch are omitted. -/
def semverParse (v : List Char) : Option SemParsed :=
  match v with
  | 'v' :: t0 =>
    match semverParseInt t0 with
    | none => none
    | some (major, r1) =>
      if r1.isEmpty then some ⟨major, ['0'], ['0'], ['.', '0', '.', '0'], [], []⟩
      else
        match r1 with
        | '.' :: t1 =>
          match semverParseInt t1 with
          | none => none
          | some (minor, r2) =>
            if r2.isEmpty then some ⟨major, minor, ['0'], ['.', '0'], [], []⟩
            else
              match r2 with
              | '.' :: t2 =>
                match semverParseInt t2 with
                | none => none
                | some (patch, r3) =>
                  match (if r3.head? == some '-' then semverParsePrerelease r3
                         else some ([], r3)) with
                  | none => none
                  | some (pre, r4) =>
                    match (if r4.head? == some '+' then semverParseBuild r4
                           else some ([], r4)) with
                    | none => none
                    | some (bld, r5) =>
                      if r5.isEmpty then some ⟨major, minor, patch, [], pre, bld⟩
                      else none
              | _ => none
        | _ => none
  | _ => none

/-- Mirrors `semver.Canonical`: `""` for an invalid version, the input
with build suffix stripped, or the input completed by `short`. -/
def semverCanonical (v : String) : String :=
  match semverParse v.toList with
  | none => ""
  | some p =>
    if !p.build.isEmpty then String.mk (v.toList.take (v.toList.length - p.build.length))
    else if !p.short.isEmpty then v ++ String.mk p.short
    else v

/-- Mirrors `semver.Build`. -/
def semverBuild (v : String) : String :=
  match semverParse v.toList with
  | none => ""
  | some p => String.mk p.build

/-- Mirrors `module.CanonicalVersion`: `semver.Canonical`, re-attaching
a literal `+incompatible` build suffix. -/
def CanonicalVersion (v : String) : String :=
  let cv := semverCanonical v
  if semverBuild v = "+incompatible" then cv ++ "+incompatible" else cv

/-! ## proxy/handler.go: the read-path `ProxyHandler` -/

/-- Content types, from the `const` block in `proxy`. -/
def contentTypeJSON : String := "application/json"

/-- Content type of `list` and `.mod` responses. -/
def contentTypeText : String := "text/plain; charset=UTF-8"

/-- Content type of `.zip` responses. -/
def contentTypeBinary : String := "application/octet-stream"

/-- The `errCodeNotFound` constant the code compares AWS error codes
against. -/
def errCodeNotFound : String := "NotFound"

/-- A Go `error` value as the handler distinguishes them:
an `awserr.Error` carrying a code, an error matching
`errors.Is(err, os.ErrNotExist)`, or any other (plain) error. -/
inductive GoErr where
  | awsErr (code : String) (msg : String)
  | notExist (msg : String)
  | plain (msg : String)
deriving DecidableEq

/-- Mirrors `ProxyHandler.handleError`: 404 for an AWS error with code
`NotFound` or an `os.ErrNotExist`, 500 otherwise. -/
def handleError (err : GoErr) : Nat :=
  match err with
  | GoErr.awsErr code _ => if code = errCodeNotFound then 404 else 500
  | GoErr.notExist _ => 404
  | GoErr.plain _ => 500

/-- Mirrors `S3Downloader.Download`'s key construction:
`fmt.Sprintf("modules/%s/@v/%s", modulePath, name)`. -/
def downloadKey (modulePath name : String) : String :=
  "modules/" ++ modulePath ++ "/@v/" ++ name

/-- Outcome of one read request, as far as the blob store is concerned:
either a response written before any store access (`reject`, carrying
the HTTP status and body), or a `GetObject` issued for `key` with the
response content type `ctype` (`fetch`).  What the store then returns is
outside this model. -/
inductive ProxyResult where
  | reject (status : Nat) (body : String)
  | fetch (ctype : String) (key : String)
deriving DecidableEq

/-- Status of a `reject` outcome, `none` when the store was reached. -/
def rejectStatus : ProxyResult → Option Nat
  | ProxyResult.reject s _ => some s
  | ProxyResult.fetch _ _ => none

/-- Mirrors `ProxyHandler.ServeHTTP` from the `switch what` statement
on: `what` is the part of the URL after `/@v/`, `modPath` the already
unescaped module path.  A failure of `module.EscapePath` inside
`ProxyHandler.List`, like the `errors.New` for `latest`, flows into
`handleError`; its concrete message text (built with `fmt`) is elided
here since `handleError` only inspects the error's kind. -/
def serveWhat (modPath what : String) : ProxyResult :=
  if what = "latest" then
    ProxyResult.reject (handleError (GoErr.plain "latest is not supported")) "latest is not supported"
  else if what = "list" then
    match EscapePath modPath with
    | none => ProxyResult.reject (handleError (GoErr.plain "invalid module path")) "invalid module path"
    | some p => ProxyResult.fetch contentTypeText (downloadKey p "listproxy")
  else
    match UnescapeVersion (trimSuffix what (pathExt what)) with
    | none => ProxyResult.reject 400 "invalid escaped version"
    | some version =>
      if version = "latest" then
        ProxyResult.reject 400 "version latest is disallowed"
      else if ¬ (pathExt what = ".info") ∧ ¬ (version = CanonicalVersion version) then
        ProxyResult.reject 400 ("version " ++ version ++ " is not in canonical form")
      else if pathExt what = ".info" then
        ProxyResult.fetch contentTypeJSON (downloadKey modPath (version ++ ".info"))
      else if pathExt what = ".mod" then
        ProxyResult.fetch contentTypeText (downloadKey modPath (version ++ ".mod"))
      else if pathExt what = ".zip" then
        ProxyResult.fetch contentTypeBinary (downloadKey modPath (version ++ ".zip"))
      else ProxyResult.reject 400 "request not recognized"

/-- Mirrors `ProxyHandler.ServeHTTP` from the `module.UnescapePath`
call on: `rawModSeg` is the URL up to `/@v/` with one leading slash
trimmed.  An unescape failure goes through `handleError` (message text
elided, kind `plain`). -/
def serveVersioned (rawModSeg what : String) : ProxyResult :=
  match UnescapePath rawModSeg with
  | none =>
    ProxyResult.reject (handleError (GoErr.plain "invalid escaped module path"))
      "invalid escaped module path"
  | some modPath => serveWhat modPath what

/-- Mirrors `ProxyHandler.ServeHTTP` for a GET request with URL path
`urlPath`: the `sumdb/` rejection (`strings.Index(...) > 0`), the split
at the first `/@v/`, then `serveVersioned`. -/
def proxyServeHTTP (urlPath : String) : ProxyResult :=
  if 0 < ((firstIndexOfSub "sumdb/".toList urlPath.toList).getD 0) then
    ProxyResult.reject 404 ""
  else
    match firstIndexOfSub "/@v/".toList urlPath.toList with
    | none => ProxyResult.reject 400 "no path"
    | some i =>
      serveVersioned (trimPrefixSlash (String.mk (urlPath.toList.take i)))
        (String.mk (urlPath.toList.drop (i + 4)))

/-- Content type the handler pairs with each recognized extension. -/
def extContentType (ext : String) : String :=
  if ext = ".info" then contentTypeJSON
  else if ext = ".mod" then contentTypeText
  else contentTypeBinary

/-! ## proxy/storage.go: the populator `S3Copier` -/

/-- The slice of `os.FileInfo` that `shouldUpload` reads: directory
flag and base name. -/
structure FileEntry where
  isDir : Bool
  name : String
deriving DecidableEq

/-- Mirrors `shouldUpload`. -/
def shouldUpload (fi : FileEntry) : Bool :=
  if fi.isDir then false
  else if fi.name = "list" then true
  else if pathExt fi.name = ".mod" ∨ pathExt fi.name = ".zip" ∨
          pathExt fi.name = ".ziphash" ∨ pathExt fi.name = ".info" then true
  else if containsSubStr fi.name "sumdb" then true
  else false

/-- The collaborators `S3Copier.upload` touches, as response maps: the
local filesystem's `os.OpenFile` (by source path), S3 `HeadObject` and
`s3manager` `Upload` (by key).  `none` models a nil error. -/
structure StoreModel where
  openFile : String → Option GoErr
  head : String → Option GoErr
  put : String → Option GoErr

/-- What one `S3Copier.upload` call did: whether `HeadObject` was
issued, whether `Upload` was issued, and the error the call returned. -/
structure UploadTrace where
  didHead : Bool
  didUpload : Bool
  result : Option GoErr
deriving DecidableEq

/-- The test `upload` applies to the `HeadObject` error: it is an
`awserr.Error` whose code is `errCodeNotFound`. -/
def isNotFoundErr : Option GoErr → Bool
  | some (GoErr.awsErr code _) => code == errCodeNotFound
  | _ => false

/-- Mirrors `S3Copier.upload(force, src, dest)`: open the local file;
with `force`, upload unconditionally; otherwise issue `HeadObject` on
`"modules" + dest` and upload only when it failed with the AWS
`NotFound` code, returning the head error (or nil) in every other
case. -/
def upload (force : Bool) (store : StoreModel) (src dest : String) : UploadTrace :=
  match store.openFile src with
  | some e => ⟨false, false, some e⟩
  | none =>
    let key := "modules" ++ dest
    if force then ⟨false, true, store.put key⟩
    else
      match store.head key with
      | some (GoErr.awsErr code msg) =>
        if code = errCodeNotFound then ⟨true, true, store.put key⟩
        else ⟨true, false, some (GoErr.awsErr code msg)⟩
      | other => ⟨true, false, other⟩

/-- The `o := strings.Replace(path, assetsDir, "", 1)` line of
`S3Copier.Copy`. -/
def destOf (assetsDir p : String) : String :=
  String.mk (replaceFirst p.toList assetsDir.toList [])

/-- Mirrors the `filepath.Walk` body of `S3Copier.Copy` over the walked
entries (path plus file info, in walk order): entries failing
`shouldUpload` are passed over; for the rest `upload` runs, and a
non-nil result aborts the walk with that error, as `filepath.Walk`
propagates a callback error.  Returns the walk's error and the keys for
which an S3 upload was issued. -/
def walkEntries (force : Bool) (store : StoreModel) (assetsDir : String) :
    List (String × FileEntry) → Option GoErr × List String
  | [] => (none, [])
  | (p, fi) :: rest =>
    if shouldUpload fi then
      let dest := destOf assetsDir p
      let tr := upload force store p dest
      match tr.result with
      | some e => (some e, if tr.didUpload then ["modules" ++ dest] else [])
      | none =>
        let r := walkEntries force store assetsDir rest
        (r.1, (if tr.didUpload then ["modules" ++ dest] else []) ++ r.2)
    else walkEntries force store assetsDir rest

/-- Mirrors `parseURLPathForModule`: trim one leading slash, find the
first `@` (`strings.Index`), split there; `none` models `ok == false`. -/
def parseURLPathForModule (urlPath : String) : Option (String × String) :=
  match indexOfChar '@' (trimPrefixSlash urlPath).toList with
  | none => none
  | some i =>
    some (String.mk ((trimPrefixSlash urlPath).toList.take i),
      String.mk ((trimPrefixSlash urlPath).toList.drop (i + 1)))

/-- Outcome of the admin endpoint `S3Copier.ServeHTTP` up to the
`Copy` call: 405 for a non-POST, 400 for an unparsable path, or the
`Copy(force, module.Version{path, version})` invocation. -/
inductive CopierResult where
  | methodNotAllowed
  | badRequest (body : String)
  | copyCall (force : Bool) (path : String) (version : String)
deriving DecidableEq

/-- Mirrors `S3Copier.ServeHTTP` up to the `Copy` call; `fQuery` is the
value of the `f` query parameter (`""` when absent). -/
def copierServeHTTP (method urlPath fQuery : String) : CopierResult :=
  if method ≠ "POST" then CopierResult.methodNotAllowed
  else
    match parseURLPathForModule urlPath with
    | none => CopierResult.badRequest "malformed module path or version"
    | some (path, version) => CopierResult.copyCall (fQuery = "true") path version

/-! ## Helper lemmas -/

theorem toList_append (s t : String) : (s ++ t).toList = s.toList ++ t.toList := by
  cases s; cases t; rfl

theorem mk_toList (s : String) : String.mk s.toList = s := by
  cases s; rfl

theorem toList_mk (l : List Char) : (String.mk l).toList = l := rfl

theorem trimSuffix_append (v e : String) : trimSuffix (v ++ e) e = v := by
  have hsuf : e.toList.isSuffixOf ((v ++ e).toList) = true := by
    rw [toList_append]
    exact List.isSuffixOf_iff_suffix.mpr (List.suffix_append v.toList e.toList)
  unfold trimSuffix
  rw [if_pos hsuf, toList_append, List.length_append, Nat.add_sub_cancel,
    List.take_left, mk_toList]

theorem extRevAcc_progress (acc : List Char) (ch : Char) (t : List Char)
    (h1 : ch ≠ '/') (h2 : ch ≠ '.') :
    extRevAcc acc (ch :: t) = extRevAcc (ch :: acc) t := by
  cases t <;> simp [extRevAcc, h1, h2]

theorem pathExt_append_mod (v : String) : pathExt (v ++ ".mod") = ".mod" := by
  unfold pathExt
  rw [toList_append, show (".mod" : String).toList = ['.', 'm', 'o', 'd'] from rfl,
    List.reverse_append]
  simp only [List.reverse_cons, List.reverse_nil, List.nil_append, List.cons_append,
    List.append_assoc, List.append_nil]
  rw [extRevAcc_progress _ _ _ (by decide) (by decide),
    extRevAcc_progress _ _ _ (by decide) (by decide),
    extRevAcc_progress _ _ _ (by decide) (by decide)]
  unfold extRevAcc
  rw [if_neg (by decide), if_pos rfl]

theorem pathExt_append_zip (v : String) : pathExt (v ++ ".zip") = ".zip" := by
  unfold pathExt
  rw [toList_append, show (".zip" : String).toList = ['.', 'z', 'i', 'p'] from rfl,
    List.reverse_append]
  simp only [List.reverse_cons, List.reverse_nil, List.nil_append, List.cons_append,
    List.append_assoc, List.append_nil]
  rw [extRevAcc_progress _ _ _ (by decide) (by decide),
    extRevAcc_progress _ _ _ (by decide) (by decide),
    extRevAcc_progress _ _ _ (by decide) (by decide)]
  unfold extRevAcc
  rw [if_neg (by decide), if_pos rfl]

theorem pathExt_append_info (v : String) : pathExt (v ++ ".info") = ".info" := by
  unfold pathExt
  rw [toList_append, show (".info" : String).toList = ['.', 'i', 'n', 'f', 'o'] from rfl,
    List.reverse_append]
  simp only [List.reverse_cons, List.reverse_nil, List.nil_append, List.cons_append,
    List.append_assoc, List.append_nil]
  rw [extRevAcc_progress _ _ _ (by decide) (by decide),
    extRevAcc_progress _ _ _ (by decide) (by decide),
    extRevAcc_progress _ _ _ (by decide) (by decide),
    extRevAcc_progress _ _ _ (by decide) (by decide)]
  unfold extRevAcc
  rw [if_neg (by decide), if_pos rfl]

theorem indexOfChar_none {c : Char} :
    ∀ {s : List Char}, indexOfChar c s = none → c ∉ s := by
  intro s
  induction s with
  | nil => intro _ h; exact absurd h (List.not_mem_nil c)
  | cons a t ih =>
    intro h hmem
    unfold indexOfChar at h
    by_cases hac : a = c
    · rw [if_pos hac] at h; exact Option.noConfusion h
    · rw [if_neg hac] at h
      rcases List.mem_cons.mp hmem with h1 | h1
      · exact hac h1.symm
      · exact ih (by cases hrec : indexOfChar c t <;> simp [hrec] at h ⊢) h1

theorem indexOfChar_some {c : Char} :
    ∀ {s : List Char} {i : Nat}, indexOfChar c s = some i →
      c ∉ s.take i ∧ s.take i ++ c :: s.drop (i + 1) = s := by
  intro s
  induction s with
  | nil => intro i h; exact Option.noConfusion h
  | cons a t ih =>
    intro i h
    unfold indexOfChar at h
    by_cases hac : a = c
    · rw [if_pos hac] at h
      have : i = 0 := (Option.some.inj h).symm
      subst this
      subst hac
      exact ⟨List.not_mem_nil a, rfl⟩
    · rw [if_neg hac] at h
      cases hrec : indexOfChar c t with
      | none => rw [hrec] at h; exact Option.noConfusion h
      | some j =>
        rw [hrec] at h
        have hij : i = j + 1 := (Option.some.inj h).symm
        subst hij
        rcases ih hrec with ⟨hnotmem, heq⟩
        constructor
        · intro hmem
          rcases List.mem_cons.mp hmem with h1 | h1
          · exact hac h1.symm
          · exact hnotmem h1
        · simpa using heq

/-! ## Claim theorems -/

/-- C1: the version-list request is claimed to fetch the storage key
`modules/<escaped-pkg>/@v/list`.  The code instead fetches the artifact
name `listproxy`: for the package `golang.org/x/text` the key is
`modules/golang.org/x/text/@v/listproxy`, which differs from the
claimed key — even though the populator (`shouldUpload`/`Copy`) stores
the version list under the name `list`, so this key can never hit what
the same program uploads. -/
theorem list_request_uses_listproxy_key :
    proxyServeHTTP "/golang.org/x/text/@v/list" =
      ProxyResult.fetch contentTypeText "modules/golang.org/x/text/@v/listproxy" ∧
    ("modules/golang.org/x/text/@v/listproxy" : String) ≠
      "modules/golang.org/x/text/@v/list" := by
  decide

/-- C2 counterexample: for the escaped URL segment
`github.com/!azure/azure-sdk-for-go` the caller-visible unescaped path
is `github.com/Azure/azure-sdk-for-go`; the `.info` fetch uses the
unescaped path in its key, which differs from the claimed
`modules/<escape(p)>/...` key. -/
theorem info_key_uses_unescaped_path_counterexample :
    proxyServeHTTP "/github.com/!azure/azure-sdk-for-go/@v/v1.0.0.info" =
      ProxyResult.fetch contentTypeJSON
        "modules/github.com/Azure/azure-sdk-for-go/@v/v1.0.0.info" ∧
    EscapePath "github.com/Azure/azure-sdk-for-go" =
      some "github.com/!azure/azure-sdk-for-go" ∧
    ("modules/github.com/Azure/azure-sdk-for-go/@v/v1.0.0.info" : String) ≠
      "modules/" ++ "github.com/!azure/azure-sdk-for-go" ++ "/@v/" ++ "v1.0.0.info" := by
  decide

/-- C3 counterexample: a remainder of exactly `latest` flows into
`handleError` as a plain error, producing HTTP 500, not the claimed
400 (the store is still never reached). -/
theorem bare_latest_returns_500_counterexample :
    rejectStatus (proxyServeHTTP "/example.com/m/@v/latest") = some 500 ∧
    rejectStatus (proxyServeHTTP "/example.com/m/@v/latest") ≠ some 400 := by
  decide

/-- C4 counterexample: the URL segment `github.com/Azure` fails
`module.UnescapePath` (a bare uppercase letter is invalid in escaped
form), and the handler answers HTTP 500 via `handleError`, not the
claimed 400. -/
theorem unescape_failure_returns_500_counterexample :
    UnescapePath "github.com/Azure" = none ∧
    rejectStatus (proxyServeHTTP "/github.com/Azure/@v/v1.0.0.info") = some 500 ∧
    rejectStatus (proxyServeHTTP "/github.com/Azure/@v/v1.0.0.info") ≠ some 400 := by
  decide

/-- C8 counterexample: for the path `/a@b@c` the parser splits at the
first `@`, yielding `("a", "b@c")`, not the claimed split at the last
`@`, `("a@b", "c")`. -/
theorem parse_splits_at_first_at_counterexample :
    parseURLPathForModule "/a@b@c" = some ("a", "b@c") ∧
    parseURLPathForModule "/a@b@c" ≠ some ("a@b", "c") := by
  decide

/-- C10: the control-plane parser accepts an empty package path
(`/@v1.0.0`) and an empty version (`/pkg@`), and `ServeHTTP` passes the
parsed coordinates straight to `Copy`. -/
theorem copier_accepts_empty_path_and_version :
    parseURLPathForModule "/@v1.0.0" = some ("", "v1.0.0") ∧
    copierServeHTTP "POST" "/@v1.0.0" "" = CopierResult.copyCall false "" "v1.0.0" ∧
    parseURLPathForModule "/pkg@" = some ("pkg", "") ∧
    copierServeHTTP "POST" "/pkg@" "" = CopierResult.copyCall false "pkg" "" := by
  decide

/-- C7 counterexample: non-forced population, where the head check for
the first classified artifact fails with an AWS error other than
`NotFound` (`AccessDenied`).  The claim says the artifact is skipped
with no error and the walk continues; the code instead returns the
head error, aborting the walk — the second artifact, whose head check
would report not-found, is never uploaded. -/
theorem head_error_propagates_counterexample :
    walkEntries false
      (StoreModel.mk (fun _ => none)
        (fun k =>
          if k = "modules/a/@v/v1.0.0.mod" then some (GoErr.awsErr "AccessDenied" "denied")
          else some (GoErr.awsErr "NotFound" "nf"))
        (fun _ => none))
      "/cache/download"
      [("/cache/download/a/@v/v1.0.0.mod", FileEntry.mk false "v1.0.0.mod"),
       ("/cache/download/a/@v/v1.0.1.mod", FileEntry.mk false "v1.0.1.mod")] =
      (some (GoErr.awsErr "AccessDenied" "denied"), []) := by
  decide

/-- C9: `shouldUpload` is a pure total predicate on a filesystem entry:
never true on a directory, true on a non-directory exactly when the
name is `list`, the extension is one of `.mod`, `.zip`, `.ziphash`,
`.info`, or the name contains `sumdb`; in particular the spec's sample
entries classify as stated and `tmpfile.lock` is excluded. -/
theorem shouldUpload_characterization (fi : FileEntry) :
    (shouldUpload fi = true ↔
      fi.isDir = false ∧
        (fi.name = "list" ∨ pathExt fi.name = ".mod" ∨ pathExt fi.name = ".zip" ∨
         pathExt fi.name = ".ziphash" ∨ pathExt fi.name = ".info" ∨
         containsSubStr fi.name "sumdb" = true)) ∧
    shouldUpload ⟨false, "list"⟩ = true ∧
    shouldUpload ⟨false, "v1.2.3.mod"⟩ = true ∧
    shouldUpload ⟨false, "v1.2.3.zip"⟩ = true ∧
    shouldUpload ⟨false, "v1.2.3.ziphash"⟩ = true ∧
    shouldUpload ⟨false, "v1.2.3.info"⟩ = true ∧
    shouldUpload ⟨false, "x_sumdb_y"⟩ = true ∧
    shouldUpload ⟨true, "list"⟩ = false ∧
    shouldUpload ⟨false, "tmpfile.lock"⟩ = false := by
  refine ⟨?_, by decide, by decide, by decide, by decide, by decide, by decide,
    by decide, by decide⟩
  unfold shouldUpload
  split_ifs with h1 h2 h3 h4 <;> simp_all
  tauto

/-- C4 amended: a package-path segment that fails `module.UnescapePath`
is passed to the generic `handleError`, which maps the plain unescape
error to HTTP 500 — not the claimed 400 (the store is never reached
either way). -/
theorem unescape_failure_maps_to_500 (modSeg what : String)
    (h : UnescapePath modSeg = none) :
    serveVersioned modSeg what =
      ProxyResult.reject 500 "invalid escaped module path" := by
  unfold serveVersioned
  rw [h]
  rfl

/-- C3 amended: any request whose `/@v/` remainder is the literal
`latest`, or whose parsed version equals `latest` under any extension,
is rejected without the blob store's get being invoked; the bare
`latest` case is rejected with HTTP 500 (via `handleError`), the
version-equals-`latest` case with HTTP 400. -/
theorem latest_rejected_without_store_access (modPath what : String)
    (h : what = "latest" ∨
      UnescapeVersion (trimSuffix what (pathExt what)) = some "latest") :
    serveWhat modPath what =
      (if what = "latest" then ProxyResult.reject 500 "latest is not supported"
       else ProxyResult.reject 400 "version latest is disallowed") := by
  by_cases hl : what = "latest"
  · subst hl; rfl
  · rw [if_neg hl]
    have hv : UnescapeVersion (trimSuffix what (pathExt what)) = some "latest" :=
      h.resolve_left hl
    have hnl : ¬ what = "list" := by
      intro he
      subst he
      exact absurd hv (by decide)
    unfold serveWhat
    rw [if_neg hl, if_neg hnl, hv]
    rfl

/-- Witness for the C3 theorem at `what = "latest.info"`. -/
theorem latest_rejected_without_store_access_witness :
    serveWhat "example.com/m" "latest.info" =
      (if ("latest.info" : String) = "latest" then
        ProxyResult.reject 500 "latest is not supported"
       else ProxyResult.reject 400 "version latest is disallowed") :=
  latest_rejected_without_store_access "example.com/m" "latest.info" (Or.inr (by decide))

/-- Witness for the C4 theorem at the segment `github.com/Azure`. -/
theorem unescape_failure_maps_to_500_witness :
    serveVersioned "github.com/Azure" "list" =
      ProxyResult.reject 500 "invalid escaped module path" :=
  unescape_failure_maps_to_500 "github.com/Azure" "list" (by decide)

/-- C2 amended: for a `.info`/`.mod`/`.zip` read that reaches the blob
store, the fetched key is `modules/<p>/@v/<ver><ext>` where `p` is the
*unescaped* caller-visible module path — the handler passes `m.Path`
straight to `Download` without re-escaping (only the `list` endpoint
re-escapes); the claimed key with `escape(p)` is obtained exactly when
`escape(p) = p`. -/
theorem read_key_uses_unescaped_path (modPath what v : String)
    (hext : pathExt what = ".info" ∨ pathExt what = ".mod" ∨ pathExt what = ".zip")
    (hv : UnescapeVersion (trimSuffix what (pathExt what)) = some v)
    (hlat : ¬ v = "latest")
    (hcan : pathExt what = ".info" ∨ v = CanonicalVersion v) :
    serveWhat modPath what =
      ProxyResult.fetch (extContentType (pathExt what))
        (downloadKey modPath (v ++ pathExt what)) := by
  have hl : ¬ what = "latest" := by
    intro he; subst he
    rcases hext with h | h | h <;> exact absurd h (by decide)
  have hli : ¬ what = "list" := by
    intro he; subst he
    rcases hext with h | h | h <;> exact absurd h (by decide)
  have hcan' : ¬ (¬ (pathExt what = ".info") ∧ ¬ (v = CanonicalVersion v)) := by
    rcases hcan with h | h
    · exact fun hc => hc.1 h
    · exact fun hc => hc.2 h
  unfold serveWhat
  rw [if_neg hl, if_neg hli, hv]
  dsimp only
  rw [if_neg hlat, if_neg hcan']
  rcases hext with h | h | h <;> rw [h] <;> simp [extContentType]

/-- Witness for the C2 theorem at a concrete `.zip` request. -/
theorem read_key_uses_unescaped_path_witness :
    serveWhat "example.com/m" "v1.2.3.zip" =
      ProxyResult.fetch (extContentType (pathExt "v1.2.3.zip"))
        (downloadKey "example.com/m" ("v1.2.3" ++ pathExt "v1.2.3.zip")) :=
  read_key_uses_unescaped_path "example.com/m" "v1.2.3.zip" "v1.2.3"
    (Or.inr (Or.inr (by decide))) (by decide) (by decide) (Or.inr (by decide))

/-- C5: a version `v` that is not in canonical form
(`CanonicalVersion v ≠ v`) is rejected for `.mod` and `.zip` with HTTP
400 and a message naming `v`, without the blob store being touched,
while the same `v` under `.info` is forwarded to the store. -/
theorem noncanonical_version_rejected_except_info (modPath v : String)
    (hun : UnescapeVersion v = some v)
    (hlat : ¬ v = "latest")
    (hcan : ¬ v = CanonicalVersion v) :
    serveWhat modPath (v ++ ".mod") =
      ProxyResult.reject 400 ("version " ++ v ++ " is not in canonical form") ∧
    serveWhat modPath (v ++ ".zip") =
      ProxyResult.reject 400 ("version " ++ v ++ " is not in canonical form") ∧
    serveWhat modPath (v ++ ".info") =
      ProxyResult.fetch contentTypeJSON (downloadKey modPath (v ++ ".info")) := by
  refine ⟨?_, ?_, ?_⟩
  · have hl : ¬ (v ++ ".mod") = "latest" := by
      intro hx
      have hpe := pathExt_append_mod v
      rw [hx] at hpe
      exact absurd hpe (by decide)
    have hli : ¬ (v ++ ".mod") = "list" := by
      intro hx
      have hpe := pathExt_append_mod v
      rw [hx] at hpe
      exact absurd hpe (by decide)
    unfold serveWhat
    rw [if_neg hl, if_neg hli, pathExt_append_mod, trimSuffix_append, hun]
    dsimp only
    rw [if_neg hlat, if_pos ⟨by decide, hcan⟩]
  · have hl : ¬ (v ++ ".zip") = "latest" := by
      intro hx
      have hpe := pathExt_append_zip v
      rw [hx] at hpe
      exact absurd hpe (by decide)
    have hli : ¬ (v ++ ".zip") = "list" := by
      intro hx
      have hpe := pathExt_append_zip v
      rw [hx] at hpe
      exact absurd hpe (by decide)
    unfold serveWhat
    rw [if_neg hl, if_neg hli, pathExt_append_zip, trimSuffix_append, hun]
    dsimp only
    rw [if_neg hlat, if_pos ⟨by decide, hcan⟩]
  · have hl : ¬ (v ++ ".info") = "latest" := by
      intro hx
      have hpe := pathExt_append_info v
      rw [hx] at hpe
      exact absurd hpe (by decide)
    have hli : ¬ (v ++ ".info") = "list" := by
      intro hx
      have hpe := pathExt_append_info v
      rw [hx] at hpe
      exact absurd hpe (by decide)
    unfold serveWhat
    rw [if_neg hl, if_neg hli, pathExt_append_info, trimSuffix_append, hun]
    dsimp only
    rw [if_neg hlat, if_neg (fun hc => hc.1 rfl), if_pos rfl]

/-- Witness for the C5 theorem at `v = "v1.0"` (canonical form
`v1.0.0`). -/
theorem noncanonical_version_rejected_except_info_witness :
    serveWhat "example.com/m" ("v1.0" ++ ".mod") =
      ProxyResult.reject 400 ("version " ++ "v1.0" ++ " is not in canonical form") ∧
    serveWhat "example.com/m" ("v1.0" ++ ".zip") =
      ProxyResult.reject 400 ("version " ++ "v1.0" ++ " is not in canonical form") ∧
    serveWhat "example.com/m" ("v1.0" ++ ".info") =
      ProxyResult.fetch contentTypeJSON (downloadKey "example.com/m" ("v1.0" ++ ".info")) :=
  noncanonical_version_rejected_except_info "example.com/m" "v1.0"
    (by decide) (by decide) (by decide)

/-- C6: with the local artifact file readable, `upload` issues no head
check and always uploads when `force` is set, and otherwise issues the
head check first and uploads exactly when that check failed with the
AWS `NotFound` code. -/
theorem force_skips_head_check (force : Bool) (store : StoreModel) (src dest : String)
    (hopen : store.openFile src = none) :
    (upload force store src dest).didHead = !force ∧
    (force = true → (upload force store src dest).didUpload = true) ∧
    (force = false →
      (upload force store src dest).didUpload =
        isNotFoundErr (store.head ("modules" ++ dest))) := by
  unfold upload
  rw [hopen]
  cases force with
  | true => exact ⟨rfl, fun _ => rfl, fun h => Bool.noConfusion h⟩
  | false =>
    dsimp only
    refine ⟨?_, fun h => Bool.noConfusion h, fun _ => ?_⟩ <;>
    · cases hh : store.head ("modules" ++ dest) with
      | none => simp [isNotFoundErr]
      | some e =>
        cases e with
        | awsErr code msg =>
          by_cases hc : code = errCodeNotFound <;> simp [isNotFoundErr, hc]
        | notExist m => simp [isNotFoundErr]
        | plain m => simp [isNotFoundErr]

/-- Witness for the C6 theorem: non-forced, head reporting `NotFound`,
so the upload is issued after the head check. -/
theorem force_skips_head_check_witness :
    (upload false
        (StoreModel.mk (fun _ => none) (fun _ => some (GoErr.awsErr "NotFound" "nf"))
          (fun _ => none)) "/tmp/a" "/a/@v/list").didHead = !false ∧
    (false = true → (upload false
        (StoreModel.mk (fun _ => none) (fun _ => some (GoErr.awsErr "NotFound" "nf"))
          (fun _ => none)) "/tmp/a" "/a/@v/list").didUpload = true) ∧
    (false = false → (upload false
        (StoreModel.mk (fun _ => none) (fun _ => some (GoErr.awsErr "NotFound" "nf"))
          (fun _ => none)) "/tmp/a" "/a/@v/list").didUpload =
      isNotFoundErr ((StoreModel.mk (fun _ => none)
          (fun _ => some (GoErr.awsErr "NotFound" "nf"))
          (fun _ => none)).head ("modules" ++ "/a/@v/list"))) :=
  force_skips_head_check false
    (StoreModel.mk (fun _ => none) (fun _ => some (GoErr.awsErr "NotFound" "nf"))
      (fun _ => none)) "/tmp/a" "/a/@v/list" rfl

/-- C7 amended: in a non-forced population of a classified artifact
whose local file opens, a head check that *succeeds* (the key exists)
skips the artifact with no error and the walk continues over the rest;
but a head check failing with any error other than `NotFound` does not
merely skip: the error is returned and the walk aborts (no upload was
issued for that artifact). -/
theorem head_outcome_decides_skip_or_abort (store : StoreModel) (dir p : String)
    (fi : FileEntry) (rest : List (String × FileEntry))
    (hsu : shouldUpload fi = true) (hopen : store.openFile p = none) :
    (store.head ("modules" ++ destOf dir p) = none →
      walkEntries false store dir ((p, fi) :: rest) = walkEntries false store dir rest) ∧
    (∀ e, store.head ("modules" ++ destOf dir p) = some e →
      isNotFoundErr (some e) = false →
      walkEntries false store dir ((p, fi) :: rest) = (some e, [])) := by
  constructor
  · intro hh
    have hup : upload false store p (destOf dir p) = ⟨true, false, none⟩ := by
      unfold upload
      rw [hopen]
      dsimp only
      rw [if_neg (fun hx => Bool.noConfusion hx), hh]
    simp [walkEntries, hsu, hup]
  · intro e hh hnf
    have hup : upload false store p (destOf dir p) = ⟨true, false, some e⟩ := by
      unfold upload
      rw [hopen]
      dsimp only
      rw [if_neg (fun hx => Bool.noConfusion hx), hh]
      cases e with
      | awsErr code msg =>
        have hc : ¬ code = errCodeNotFound := by
          intro hx
          rw [hx] at hnf
          exact absurd hnf (by simp [isNotFoundErr, errCodeNotFound])
        dsimp only
        rw [if_neg hc]
      | notExist m => rfl
      | plain m => rfl
    simp [walkEntries, hsu, hup]

/-- Witness for the C7 theorem: head succeeding (key exists), so the
entry is skipped and the walk continues with the remaining entries. -/
theorem head_outcome_decides_skip_or_abort_witness :
    walkEntries false
      (StoreModel.mk (fun _ => none) (fun _ => none) (fun _ => none))
      "/cache/download"
      [("/cache/download/a/@v/list", FileEntry.mk false "list")] =
    walkEntries false
      (StoreModel.mk (fun _ => none) (fun _ => none) (fun _ => none))
      "/cache/download" [] :=
  (head_outcome_decides_skip_or_abort
      (StoreModel.mk (fun _ => none) (fun _ => none) (fun _ => none))
      "/cache/download" "/cache/download/a/@v/list" (FileEntry.mk false "list") []
      (by decide) rfl).1 rfl

/-- C8 amended: the parser splits at the *first* `@`
(`strings.Index`): a successful parse returns an `@`-free package part
and the remainder after that first `@`; with no `@` at all it fails
and the endpoint answers HTTP 400. -/
theorem parse_splits_at_first_at (urlPath : String) :
    (∀ path version, parseURLPathForModule urlPath = some (path, version) →
      '@' ∉ path.toList ∧
      path.toList ++ '@' :: version.toList = (trimPrefixSlash urlPath).toList) ∧
    (parseURLPathForModule urlPath = none →
      '@' ∉ (trimPrefixSlash urlPath).toList ∧
      copierServeHTTP "POST" urlPath "" =
        CopierResult.badRequest "malformed module path or version") := by
  constructor
  · intro path version hp
    unfold parseURLPathForModule at hp
    cases hidx : indexOfChar '@' (trimPrefixSlash urlPath).toList with
    | none => rw [hidx] at hp; exact Option.noConfusion hp
    | some i =>
      rw [hidx] at hp
      dsimp only at hp
      have h1 : String.mk ((trimPrefixSlash urlPath).toList.take i) = path :=
        congrArg Prod.fst (Option.some.inj hp)
      have h2 : String.mk ((trimPrefixSlash urlPath).toList.drop (i + 1)) = version :=
        congrArg Prod.snd (Option.some.inj hp)
      subst h1
      subst h2
      rw [toList_mk, toList_mk]
      exact indexOfChar_some hidx
  · intro hp
    cases hidx : indexOfChar '@' (trimPrefixSlash urlPath).toList with
    | some i =>
      exfalso
      unfold parseURLPathForModule at hp
      rw [hidx] at hp
      exact Option.noConfusion hp
    | none =>
      refine ⟨indexOfChar_none hidx, ?_⟩
      have hnone : parseURLPathForModule urlPath = none := by
        unfold parseURLPathForModule
        rw [hidx]
      unfold copierServeHTTP
      rw [if_neg (by decide : ¬ ("POST" : String) ≠ "POST"), hnone]

/-- Witness for the C8 theorem at the path `/a@v1.0.0`. -/
theorem parse_splits_at_first_at_witness :
    '@' ∉ ("a" : String).toList ∧
    ("a" : String).toList ++ '@' :: ("v1.0.0" : String).toList =
      (trimPrefixSlash "/a@v1.0.0").toList :=
  (parse_splits_at_first_at "/a@v1.0.0").1 "a" "v1.0.0" (by decide)
